import Mathlib

/-!
A shallow embedding of `src/create_test_image.py`, a straight-line Python
script that draws five book spines on a fixed-size canvas and saves the
result as a JPEG.  The script's data (the `books` list, the canvas, the
constants) is translated directly; its observable behaviour is modelled as
a trace of events (draw calls, the save, the print), and the pixel-level
effect of the draw calls is given by an interpreter over a canvas, with
text rasterization kept parametric since the script never depends on it.
-/

/-- A book spine descriptor: one element of the `books` list literal
(lines 11-17 of the script), a Python dict with five keys. -/
structure Book where
  title : String
  author : String
  color : String
  x : Int
  width : Int
deriving DecidableEq

/-- The five hardcoded spine descriptors, in listed order (lines 11-17). -/
def books : List Book :=
  [⟨"1984", "George Orwell", "#8B4513", 50, 80⟩,
   ⟨"To Kill a Mockingbird", "Harper Lee", "#4169E1", 140, 100⟩,
   ⟨"The Great Gatsby", "F. Scott Fitzgerald", "#228B22", 250, 90⟩,
   ⟨"Pride and Prejudice", "Jane Austen", "#DC143C", 350, 95⟩,
   ⟨"The Catcher in the Rye", "J.D. Salinger", "#FF8C00", 455, 85⟩]

/-- Canvas width, from `width, height = 1200, 800` (line 6). -/
def width : Int := 1200

/-- Canvas height, from `width, height = 1200, 800` (line 6). -/
def height : Int := 800

/-- The background fill colour passed to `Image.new` (line 7). -/
def backgroundColor : String := "#F5E6D3"

/-- A font value as used by the script: either the truetype font loaded
from a path at a size (`ImageFont.truetype`, line 26) or the built-in
fallback (`ImageFont.load_default`, line 28). -/
inductive Font where
  | truetype (path : String) (size : Int)
  | load_default
deriving DecidableEq

/-- The font path the script tries first (line 26). -/
def helveticaPath : String := "/System/Library/Fonts/Helvetica.ttc"

/-- The try/except of lines 25-28: `fontOk` records whether the
environment can load the truetype font; any failure at all is caught by
the bare `except` and falls back to the built-in default font. -/
def loadFont (fontOk : Bool) : Font :=
  if fontOk then Font.truetype helveticaPath 16 else Font.load_default

/-- One drawing call against the canvas: `draw.rectangle` (line 22) or
`draw.text` (lines 32-33).  Rectangle corners follow PIL's convention:
both corner coordinates are part of the filled region. -/
inductive DrawCmd where
  | rectangle (x0 y0 x1 y1 : Int) (fill : String)
  | text (x y : Int) (s fill : String) (font : Font)
deriving DecidableEq

/-- The `text_x` local of line 31: `book["x"] + book["width"] // 2 - 5`,
with Python's floor division. -/
def text_x (b : Book) : Int := b.x + Int.fdiv b.width 2 - 5

/-- The body of the `for book in books` loop (lines 20-33): one filled
rectangle for the spine, then the title and the author text, both at
`text_x` and in white, using whatever font the try/except produced. -/
def drawBook (fontOk : Bool) (b : Book) : List DrawCmd :=
  [DrawCmd.rectangle b.x 100 (b.x + b.width) 700 b.color,
   DrawCmd.text (text_x b) 150 b.title "white" (loadFont fontOk),
   DrawCmd.text (text_x b) 400 b.author "white" (loadFont fontOk)]

/-- The whole loop of lines 20-33 as a fold.  The first component records
the value of the loop variable after each iteration (the body never
assigns to `book`, so each descriptor passes through unchanged); the
second accumulates the draw calls in program order. -/
def drawLoop (fontOk : Bool) : List Book × List DrawCmd :=
  books.foldl (fun acc b => (acc.1 ++ [b], acc.2 ++ drawBook fontOk b)) ([], [])

/-- Everything the script can observe about its environment: whether the
Helvetica font file loads, and the state of the `random` module that is
imported on line 3 but never used. -/
structure Env where
  fontOk : Bool
  randSeed : Nat

/-- The draw calls one run issues, in program order. -/
def drawCmds (e : Env) : List DrawCmd := (drawLoop e.fontOk).2

/-- The descriptor list as left behind by the drawing loop. -/
def booksAfterLoop (e : Env) : List Book := (drawLoop e.fontOk).1

/-- An externally visible effect of the run: a draw call against the
in-memory canvas, the `img.save` of line 36 (filename, encoder name,
quality, and the dimensions of the saved image), or the `print` of
line 37. -/
inductive Event where
  | draw (c : DrawCmd)
  | save (file fmt : String) (quality w h : Int)
  | print (s : String)
deriving DecidableEq

/-- The fixed output filename of line 36. -/
def outputFile : String := "test-bookshelf.jpg"

/-- The in-memory canvas: a colour at every integer coordinate pair. -/
abbrev Canvas := Int → Int → String

/-- The image object: dimensions plus pixel contents. -/
structure Image where
  w : Int
  h : Int
  pixel : Canvas

/-- `Image.new('RGB', (width, height), color='#F5E6D3')` (line 7): a
1200 by 800 image with every pixel the background colour. -/
def img : Image := ⟨width, height, fun _ _ => backgroundColor⟩

/-- The observable effect trace of one run: all draw calls in program
order, then the save of line 36, then the print of line 37. -/
def run (e : Env) : List Event :=
  (drawCmds e).map Event.draw ++
    [Event.save outputFile "JPEG" 85 img.w img.h,
     Event.print "Created test-bookshelf.jpg"]

/-- The lines the run writes to standard output, in order. -/
def stdoutLines (e : Env) : List String :=
  (run e).filterMap fun ev =>
    match ev with
    | Event.print s => some s
    | _ => none

/-- The process exit status.  In every modelled environment the script
body runs to the end without an uncaught exception (the one fallible
step, font loading, is wrapped in try/except), so the interpreter exits
with status 0. -/
def exitCode (_e : Env) : Int := 0

/-- A `draw.rectangle(.., fill=..)` call fills every pixel between the two
corners, both corners included (PIL's inclusive convention); other pixels
keep their previous colour. -/
def fillRect (x0 y0 x1 y1 : Int) (color : String) (c : Canvas) : Canvas :=
  fun i j => if x0 ≤ i ∧ i ≤ x1 ∧ y0 ≤ j ∧ j ≤ y1 then color else c i j

/-- The rasterization of one `draw.text` call.  The script never depends
on how the imaging library renders glyphs, so the canvas semantics is
parametric in it: any fixed renderer stands for PIL's deterministic one. -/
abbrev TextRenderer := Int → Int → String → String → Font → Canvas → Canvas

/-- Interpret one draw call on the canvas. -/
def applyCmd (render : TextRenderer) (c : Canvas) : DrawCmd → Canvas
  | DrawCmd.rectangle x0 y0 x1 y1 fill => fillRect x0 y0 x1 y1 fill c
  | DrawCmd.text x y s fill font => render x y s fill font c

/-- The pixel contents of the canvas after all drawing, starting from the
freshly allocated image. -/
def finalCanvas (render : TextRenderer) (e : Env) : Canvas :=
  (drawCmds e).foldl (applyCmd render) img.pixel

/-- The spine rectangle fill of line 22 for one descriptor. -/
def fillBook (c : Canvas) (b : Book) : Canvas :=
  fillRect b.x 100 (b.x + b.width) 700 b.color c

/-- The five spine rectangle fills applied in list order. -/
def fillAll (l : List Book) (c : Canvas) : Canvas := l.foldl fillBook c

/-- The file system as the script affects it: for each name, whether a
file produced by `img.save` exists there, and with which encoder name,
quality and dimensions. -/
abbrev FS := String → Option (String × Int × Int × Int)

/-- How one event changes the file system: a save (re)writes its target
name unconditionally; draw calls and prints touch no file. -/
def applyEvent (fs : FS) : Event → FS
  | Event.save file fmt q w h => fun f => if f = file then some (fmt, q, w, h) else fs f
  | _ => fs

/-- The file system after one run of the script over an arbitrary
starting file system. -/
def finalFS (e : Env) (fs0 : FS) : FS := (run e).foldl applyEvent fs0

/-- Recognizer for rectangle draw calls. -/
def isRectangle : DrawCmd → Bool
  | DrawCmd.rectangle _ _ _ _ _ => true
  | _ => false

/-- Recognizer for text draw calls. -/
def isText : DrawCmd → Bool
  | DrawCmd.text _ _ _ _ _ => true
  | _ => false

/-- The ten text draw calls the spec expects, written with the offset
arithmetic spelled out: for each descriptor the title at vertical offset
150 and then the author at 400, both white, both at the horizontal offset
`x + width // 2 - 5`. -/
def expectedTextCmds (font : Font) : List DrawCmd :=
  books.flatMap fun b =>
    [DrawCmd.text (b.x + Int.fdiv b.width 2 - 5) 150 b.title "white" font,
     DrawCmd.text (b.x + Int.fdiv b.width 2 - 5) 400 b.author "white" font]

/-- A concrete renderer instance, used to exhibit the parametric canvas
semantics at a specific value. -/
def idRenderer : TextRenderer := fun _ _ _ _ _ c => c

/- Helper lemmas shared by the claim theorems. -/

/-- Draw events leave the file system unchanged. -/
lemma foldl_applyEvent_draws (fs : FS) (l : List DrawCmd) :
    (l.map Event.draw).foldl applyEvent fs = fs := by
  induction l generalizing fs with
  | nil => rfl
  | cons c t ih => exact ih fs

/-- The file system after a run: exactly the output file is (re)written,
with encoder JPEG, quality 85 and the canvas dimensions. -/
lemma finalFS_eq (e : Env) (fs0 : FS) :
    finalFS e fs0 =
      fun f => if f = outputFile then some ("JPEG", 85, 1200, 800) else fs0 f := by
  show ((drawCmds e).map Event.draw ++
      [Event.save outputFile "JPEG" 85 img.w img.h,
       Event.print "Created test-bookshelf.jpg"]).foldl applyEvent fs0 = _
  rw [List.foldl_append, foldl_applyEvent_draws]
  rfl

/-- The value the run leaves at the output filename. -/
lemma finalFS_outputFile (e : Env) (fs0 : FS) :
    finalFS e fs0 outputFile = some ("JPEG", 85, 1200, 800) := by
  rw [finalFS_eq]
  simp

/-- Two spine fills over disjoint column ranges commute. -/
lemma fillBook_comm (b1 b2 : Book)
    (h : b1.x + b1.width < b2.x ∨ b2.x + b2.width < b1.x) (z : Canvas) :
    fillBook (fillBook z b1) b2 = fillBook (fillBook z b2) b1 := by
  funext i j
  simp only [fillBook, fillRect]
  split_ifs <;> first | rfl | (exfalso; omega)

/-- Any two of the five hardcoded spine fills commute: either they are the
same fill, or their column ranges are disjoint. -/
lemma fillBook_comm_books :
    ∀ x ∈ books, ∀ y ∈ books, ∀ z : Canvas,
      fillBook (fillBook z x) y = fillBook (fillBook z y) x := by
  intro x hx y hy z
  fin_cases hx <;> fin_cases hy <;>
    first
      | rfl
      | exact fillBook_comm _ _ (by decide) z

/- Claim theorems. -/

/-- C1: after all drawing completes, the run encodes the canvas as a JPEG
with quality 85 and writes it to the fixed name `test-bookshelf.jpg`,
overwriting whatever any starting file system held under that name, and
the saved image has dimensions 1200 by 800; in the trace the save comes
after every draw event. -/
theorem save_jpeg_q85_overwrites (e : Env) (fs0 : FS) :
    finalFS e fs0 outputFile = some ("JPEG", 85, 1200, 800) ∧
    run e = (drawCmds e).map Event.draw ++
      [Event.save outputFile "JPEG" 85 1200 800,
       Event.print "Created test-bookshelf.jpg"] :=
  ⟨finalFS_outputFile e fs0, rfl⟩

/-- C2: the rectangle draw calls of one run are exactly one filled
rectangle per descriptor, in listed order, spanning horizontally from the
descriptor's `x` to `x + width`, vertically from 100 to 700, filled with
the descriptor's colour. -/
theorem one_rectangle_per_descriptor (e : Env) :
    (drawCmds e).filter isRectangle =
      books.map fun b => DrawCmd.rectangle b.x 100 (b.x + b.width) 700 b.color := by
  rcases e with ⟨fo, rs⟩
  cases fo <;> rfl

/-- C3: when font loading fails, every text draw call of the run uses the
built-in default font, and the run still completes: it saves an image of
the same 1200 by 800 dimensions under the output name and exits with
status 0. -/
theorem font_fallback_completes (e : Env) (fs0 : FS) (h : e.fontOk = false) :
    (drawCmds e).filter isText = expectedTextCmds Font.load_default ∧
    finalFS e fs0 outputFile = some ("JPEG", 85, 1200, 800) ∧
    exitCode e = 0 := by
  rcases e with ⟨fo, rs⟩
  have hf : fo = false := h
  subst hf
  exact ⟨rfl, finalFS_outputFile _ fs0, rfl⟩

/-- Witness for C3 at the concrete environment where the font fails to
load and the starting file system is empty. -/
theorem font_fallback_completes_witness :
    (drawCmds ⟨false, 0⟩).filter isText = expectedTextCmds Font.load_default ∧
    finalFS ⟨false, 0⟩ (fun _ => none) outputFile = some ("JPEG", 85, 1200, 800) ∧
    exitCode ⟨false, 0⟩ = 0 :=
  font_fallback_completes ⟨false, 0⟩ (fun _ => none) rfl

/-- C4: the canvas allocated at the start of the run measures exactly
1200 by 800 and every pixel of it starts as the background colour
`#F5E6D3`; all drawing of the run folds over this canvas. -/
theorem canvas_allocated_1200x800_bg :
    img.w = 1200 ∧ img.h = 800 ∧
    (∀ i j : Int, img.pixel i j = "#F5E6D3") ∧
    ∀ (r : TextRenderer) (e : Env),
      finalCanvas r e = (drawCmds e).foldl (applyCmd r) img.pixel :=
  ⟨rfl, rfl, fun _ _ => rfl, fun _ _ => rfl⟩

/-- C5: the text draw calls of one run are, per descriptor in order, the
title and then the author below it, both white, both at horizontal offset
`x + width // 2 - 5`, with the title at vertical offset 150 and the
author at 400. -/
theorem title_author_text_layout (e : Env) :
    (drawCmds e).filter isText = expectedTextCmds (loadFont e.fontOk) := by
  rcases e with ⟨fo, rs⟩
  cases fo <;> rfl

/-- C6: the run's observable behaviour depends on nothing but the
font-availability outcome: two environments agreeing there produce the
same event trace and the same final pixel contents under any fixed text
renderer (in particular the unused random state has no influence), and
running twice leaves the file system a single run leaves. -/
theorem output_deterministic (r : TextRenderer) (e1 e2 : Env)
    (h : e1.fontOk = e2.fontOk) :
    run e1 = run e2 ∧ finalCanvas r e1 = finalCanvas r e2 ∧
    ∀ fs0 : FS, finalFS e1 (finalFS e2 fs0) = finalFS e1 fs0 := by
  rcases e1 with ⟨f1, r1⟩
  rcases e2 with ⟨f2, r2⟩
  have hf : f1 = f2 := h
  subst hf
  refine ⟨rfl, rfl, fun fs0 => ?_⟩
  rw [finalFS_eq, finalFS_eq, finalFS_eq]
  funext f
  by_cases hout : f = outputFile <;> simp [hout]

/-- Witness for C6: two concrete environments differing only in the
random state, under a concrete renderer. -/
theorem output_deterministic_witness :
    run ⟨true, 0⟩ = run ⟨true, 12345⟩ ∧
    finalCanvas idRenderer ⟨true, 0⟩ = finalCanvas idRenderer ⟨true, 12345⟩ ∧
    ∀ fs0 : FS, finalFS ⟨true, 0⟩ (finalFS ⟨true, 12345⟩ fs0) = finalFS ⟨true, 0⟩ fs0 :=
  output_deterministic idRenderer ⟨true, 0⟩ ⟨true, 12345⟩ rfl

/-- C7: on a run the script writes exactly one line to standard output,
the fixed confirmation message, the trace places that print immediately
after the save of the output file, and the exit status is 0. -/
theorem single_confirmation_line (e : Env) :
    stdoutLines e = ["Created test-bookshelf.jpg"] ∧
    (∃ pre, run e = pre ++ [Event.save outputFile "JPEG" 85 1200 800,
                            Event.print "Created test-bookshelf.jpg"]) ∧
    exitCode e = 0 := by
  refine ⟨?_, ⟨(drawCmds e).map Event.draw, rfl⟩, rfl⟩
  rcases e with ⟨fo, rs⟩
  cases fo <;> rfl

/-- C8: the drawing loop emits every descriptor unchanged: the list of
loop-variable values it leaves behind is the original `books` list, every
field included. -/
theorem descriptors_not_mutated (e : Env) :
    booksAfterLoop e = books := by
  rcases e with ⟨fo, rs⟩
  cases fo <;> rfl

/-- C9: every spine rectangle lies inside the canvas: each descriptor has
`0 ≤ x` and `x + width ≤ 1200`, the fixed vertical extents 100 and 700
lie within 0..800, and consequently the rectangle fills leave every pixel
outside the 1200 by 800 canvas unchanged. -/
theorem rectangles_within_canvas :
    (∀ b ∈ books, 0 ≤ b.x ∧ b.x + b.width ≤ 1200) ∧
    ((0 : Int) ≤ 100 ∧ (100 : Int) ≤ 700 ∧ (700 : Int) ≤ 800) ∧
    ∀ i j : Int, ¬(0 ≤ i ∧ i < 1200 ∧ 0 ≤ j ∧ j < 800) →
      fillAll books img.pixel i j = img.pixel i j := by
  refine ⟨by decide, by decide, fun i j h => ?_⟩
  simp only [fillAll, books, List.foldl, fillBook, fillRect]
  split_ifs <;> first | rfl | (exfalso; omega)

/-- C10: consecutive spine rectangles are strictly disjoint horizontally
(each descriptor's `x + width` is below the next descriptor's `x`), and
therefore applying the five rectangle fills in any order produces the
same canvas as the listed order. -/
theorem spines_disjoint_order_irrelevant :
    List.Chain' (fun a b => a.x + a.width < b.x) books ∧
    ∀ (l : List Book) (c : Canvas), l.Perm books → fillAll l c = fillAll books c := by
  refine ⟨by norm_num [books, List.chain'_cons, List.chain'_singleton], fun l c hp => ?_⟩
  exact hp.foldl_eq'
    (fun x hx y hy z => fillBook_comm_books x (hp.subset hx) y (hp.subset hy) z) c
